import Mathlib

/-!
Shallow embedding of `src/main.py` (class `LithuanianCityDistance`) and proofs
about the claims of the specification.

Modelling conventions:
* Python floats are modelled as exact rationals (`ℚ`); `round(x, 2)` becomes
  `roundTo2`.
* The mutable fields of the session object (`coordinate_cache`, `cache_hits`,
  `cache_misses`) become an explicit state record `St`, threaded through every
  method.  Two instrumentation counters are added so that observable events can
  be stated: `requests` counts issued network requests, `sleeps` counts
  `time.sleep` calls.
* The external geocoding service is a world oracle `World : String → Response`,
  giving, for each normalized name, the outcome of the single request the code
  would issue for it.
* Python exceptions that escape a method are modelled with `Except`: `.error s`
  is an uncaught exception, carrying the session state at the moment it
  propagates.
* `geopy.distance.geodesic(..).kilometers` is an external library, not part of
  this repository; it is taken as an arbitrary function parameter `Geodesic`.
-/

namespace CityDistance

/-- Coordinate pair `(latitude, longitude)`, the Python `(lat, lon)` tuple. -/
abbrev Coord := ℚ × ℚ

/-- Value stored in `self.coordinate_cache`: either a coordinate tuple or the
string sentinel `"INVALID"` (modelled as the tag `invalid`). -/
inductive CacheEntry
  | resolved (c : Coord)
  | invalid
deriving DecidableEq, Repr

/-- Session state: the mutable fields of a `LithuanianCityDistance` object,
plus two event counters (`requests`, `sleeps`) recording observable effects. -/
structure St where
  cache : List (String × CacheEntry)
  cache_hits : ℕ
  cache_misses : ℕ
  requests : ℕ
  sleeps : ℕ
deriving DecidableEq, Repr

/-- Python `dict` membership test and read on the cache: first matching key.
States built by the code never hold a key twice, so this agrees with `dict`
lookup. -/
def cacheLookup (m : List (String × CacheEntry)) (k : String) : Option CacheEntry :=
  match m with
  | [] => none
  | (k', v) :: rest => if k' = k then some v else cacheLookup rest k

/-- One field of the first JSON result: a numeric string (so `float(..)`
succeeds), a non-numeric value (`float(..)` raises `ValueError` or
`TypeError`), or a missing key (the subscript raises `KeyError`). -/
inductive FieldVal
  | num (q : ℚ)
  | notNum
  | missing
deriving DecidableEq, Repr

/-- One element of the JSON array answered by the geocoding service. -/
structure GeoResult where
  lat : FieldVal
  lon : FieldVal
deriving DecidableEq, Repr

/-- Outcome of the single HTTP request for a name: a 2xx JSON array, or one of
the three caught request-level failures (`Timeout`, `TooManyRedirects`, any
other `RequestException`; the last covers non-2xx statuses and bodies that are
not valid JSON). -/
inductive Response
  | ok (results : List GeoResult)
  | timeout
  | tooManyRedirects
  | requestError
deriving DecidableEq, Repr

/-- The external service as an oracle from normalized name to response. -/
abbrev World := String → Response

/-- Python `str.title()` on a character list: each alphabetic character is
upper-cased when the previous character was not alphabetic, lower-cased
otherwise. -/
def titleStep : List Char → Bool → List Char
  | [], _ => []
  | c :: cs, prevAlpha =>
    if c.isAlpha then
      (if prevAlpha then c.toLower else c.toUpper) :: titleStep cs true
    else
      c :: titleStep cs false

/-- Python `str.strip()`: drop leading and trailing whitespace. -/
def pyStrip (l : List Char) : List Char :=
  ((l.dropWhile Char.isWhitespace).reverse.dropWhile Char.isWhitespace).reverse

/-- Name normalization `city_name.strip().title()` (lines 16, 59, 87, 116). -/
def normalize (s : String) : String := (titleStep (pyStrip s.data) false).asString

/-- Python `float(..)` applied to a result field: `some` on a numeric value,
`none` when the field access or the conversion would raise. -/
def parseField : FieldVal → Option ℚ
  | .num q => some q
  | _ => none

/-- Embedding of `get_coordinates` (lines 15-56).  `.ok (o, s)` is a normal
return (`o = none` is Python `None`); `.error s` is an uncaught exception
escaping the method, possible only from `float(data[0][..])` on a structurally
malformed first result — those raises match none of the `except` clauses,
though the `finally` sleep still runs and the object state survives. -/
def get_coordinates (w : World) (s : St) (city_name : String) :
    Except St (Option Coord × St) :=
  match cacheLookup s.cache (normalize city_name) with
  | some e =>
      .ok ((match e with | .resolved c => some c | .invalid => none),
           { s with cache_hits := s.cache_hits + 1 })
  | none =>
      match w (normalize city_name) with
      | .ok (r :: _) =>
          match parseField r.lat, parseField r.lon with
          | some la, some lo =>
              .ok (some (la, lo),
                   { s with
                     cache := (normalize city_name, .resolved (la, lo)) :: s.cache,
                     cache_misses := s.cache_misses + 1,
                     requests := s.requests + 1,
                     sleeps := s.sleeps + 1 })
          | _, _ =>
              .error { s with cache_misses := s.cache_misses + 1,
                              requests := s.requests + 1,
                              sleeps := s.sleeps + 1 }
      | .ok [] =>
          .ok (none, { s with
                       cache := (normalize city_name, .invalid) :: s.cache,
                       cache_misses := s.cache_misses + 1,
                       requests := s.requests + 1,
                       sleeps := s.sleeps + 1 })
      | .timeout =>
          .ok (none, { s with
                       cache := (normalize city_name, .invalid) :: s.cache,
                       cache_misses := s.cache_misses + 1,
                       requests := s.requests + 1,
                       sleeps := s.sleeps + 1 })
      | .tooManyRedirects =>
          .ok (none, { s with
                       cache := (normalize city_name, .invalid) :: s.cache,
                       cache_misses := s.cache_misses + 1,
                       requests := s.requests + 1,
                       sleeps := s.sleeps + 1 })
      | .requestError =>
          .ok (none, { s with
                       cache := (normalize city_name, .invalid) :: s.cache,
                       cache_misses := s.cache_misses + 1,
                       requests := s.requests + 1,
                       sleeps := s.sleeps + 1 })

/-- Embedding of `validate_city` (lines 58-63).  The cached branch reads the
cache directly (no counter update); otherwise it defers to `get_coordinates`,
called on the already-normalized name. -/
def validate_city (w : World) (s : St) (city_name : String) :
    Except St (Bool × St) :=
  match cacheLookup s.cache (normalize city_name) with
  | some e => .ok (decide (e ≠ CacheEntry.invalid), s)
  | none =>
      match get_coordinates w s (normalize city_name) with
      | .ok (o, s') => .ok (o.isSome, s')
      | .error s' => .error s'

/-- Python `round(x, 2)` on the exact-rational model. -/
def roundTo2 (q : ℚ) : ℚ := ((round (q * 100) : ℤ) : ℚ) / 100

/-- The literal `0.621371` of line 82. -/
def mileFactor : ℚ := 621371 / 1000000

/-- Modelled from the spec: the underlying kilometre distance of the Distance
Engine, `geopy.distance.geodesic(c1, c2).kilometers`, is an external library
absent from this repository; it is an arbitrary parameter of the embedding. -/
abbrev Geodesic := Coord → Coord → ℚ

/-- Embedding of `calculate_distance_km` (lines 65-73). -/
def calculate_distance_km (g : Geodesic) (w : World) (s : St)
    (city1 city2 : String) : Except St (Option ℚ × St) :=
  match get_coordinates w s city1 with
  | .error s' => .error s'
  | .ok (coord1, s1) =>
      match get_coordinates w s1 city2 with
      | .error s' => .error s'
      | .ok (coord2, s2) =>
          match coord1, coord2 with
          | some c1, some c2 => .ok (some (roundTo2 (g c1 c2)), s2)
          | _, _ => .ok (none, s2)

/-- Embedding of `calculate_distance` (lines 75-84): the mile figure is
`round(distance_km * 0.621371, 2)`, computed from the UNROUNDED kilometre
distance. -/
def calculate_distance (g : Geodesic) (w : World) (s : St)
    (city1 city2 : String) (unit : String) : Except St (Option ℚ × St) :=
  match get_coordinates w s city1 with
  | .error s' => .error s'
  | .ok (coord1, s1) =>
      match get_coordinates w s1 city2 with
      | .error s' => .error s'
      | .ok (coord2, s2) =>
          match coord1, coord2 with
          | some c1, some c2 =>
              if unit = "miles" then
                .ok (some (roundTo2 (g c1 c2 * mileFactor)), s2)
              else
                .ok (some (roundTo2 (g c1 c2)), s2)
          | _, _ => .ok (none, s2)

/-- Python `dict` insertion (`d[k] = v`): overwrite in place, append if new. -/
def pyDictInsert {α : Type} (m : List (String × α)) (k : String) (v : α) :
    List (String × α) :=
  match m with
  | [] => [(k, v)]
  | (k', v') :: rest =>
      if k' = k then (k', v) :: rest else (k', v') :: pyDictInsert rest k v

/-- Python `dict` read, first matching key (keys are unique in dicts built by
`pyDictInsert`). -/
def pyDictLookup {α : Type} (m : List (String × α)) (k : String) : Option α :=
  match m with
  | [] => none
  | (k', v) :: rest => if k' = k then some v else pyDictLookup rest k

/-- The dict comprehension of line 88,
`coords = {city: self.get_coordinates(city) for city in cleaned_cities}`,
evaluated left to right, later duplicates overwriting. -/
def buildCoords (w : World) (cities : List String)
    (acc : List (String × Option Coord)) (s : St) :
    Except St (List (String × Option Coord) × St) :=
  match cities with
  | [] => .ok (acc, s)
  | city :: rest =>
      match get_coordinates w s city with
      | .error s' => .error s'
      | .ok (o, s1) => buildCoords w rest (pyDictInsert acc city o) s1

/-- One cell of the matrix body (lines 93-100).  In `create_distance_matrix`
both names are always keys of `coords`, so the missing-key case (where Python
would raise `KeyError`) is unreachable and mapped to `none`. -/
def matrixCell (g : Geodesic) (coords : List (String × Option Coord))
    (city1 city2 : String) : Option ℚ :=
  if city1 = city2 then some 0
  else
    match pyDictLookup coords city1, pyDictLookup coords city2 with
    | some (some c1), some (some c2) => some (roundTo2 (g c1 c2))
    | _, _ => none

/-- The returned `pd.DataFrame`: row and column labels plus the table of cells
(`none` is the Python `None` placed by line 100). -/
structure DistanceMatrix where
  labels : List String
  rows : List (List (Option ℚ))
deriving DecidableEq, Repr

/-- Embedding of `create_distance_matrix` (lines 86-103). -/
def create_distance_matrix (g : Geodesic) (w : World) (s : St)
    (city_list : List String) : Except St (DistanceMatrix × St) :=
  match buildCoords w (city_list.map normalize) [] s with
  | .error s' => .error s'
  | .ok (coords, s1) =>
      .ok ({ labels := city_list.map normalize,
             rows := (city_list.map normalize).map (fun c1 =>
               (city_list.map normalize).map (fun c2 =>
                 matrixCell g coords c1 c2)) }, s1)

/-- Effect of a successful `export_matrix`: which serializer ran, on what. -/
inductive FileWrite
  | csv (df : DistanceMatrix) (filename : String)
  | excel (df : DistanceMatrix) (filename : String)
deriving DecidableEq, Repr

/-- Embedding of `export_matrix` (lines 105-111): `.error msg` is the raised
`ValueError` (the Python message additionally quotes the two format names);
`.ok` carries the single file write performed. -/
def export_matrix (df : DistanceMatrix) (filename : String) (format : String) :
    Except String FileWrite :=
  if format = "csv" then .ok (.csv df filename)
  else if format = "excel" then .ok (.excel df filename)
  else .error "Unsupported format. Use csv or excel"

/-- Value placed in the result dict of `get_coordinates_batch`: a coordinate
tuple, Python `None`, or the raw cached string `"INVALID"`. -/
inductive PyVal
  | coord (c : Coord)
  | pyNone
  | invalidStr
deriving DecidableEq, Repr

/-- The raw cache value exactly as `get_coordinates_batch` reads it on
line 120, without the `"INVALID"`-to-`None` translation of line 21. -/
def entryToPyVal : CacheEntry → PyVal
  | .resolved c => .coord c
  | .invalid => .invalidStr

/-- Embedding of `get_coordinates_batch` (lines 113-122).  The cached branch
copies the raw cache value into the results; the uncached branch stores the
`get_coordinates` return value; either way the loop body ends with an
unconditional `time.sleep` (line 121), skipped only when `get_coordinates`
raised. -/
def get_coordinates_batch (w : World) (cities : List String)
    (acc : List (String × PyVal)) (s : St) :
    Except St (List (String × PyVal) × St) :=
  match cities with
  | [] => .ok (acc, s)
  | city :: rest =>
      match cacheLookup s.cache (normalize city) with
      | none =>
          match get_coordinates w s (normalize city) with
          | .error s' => .error s'
          | .ok (o, s1) =>
              get_coordinates_batch w rest
                (pyDictInsert acc (normalize city)
                  (match o with | some c => .coord c | none => .pyNone))
                { s1 with sleeps := s1.sleeps + 1 }
      | some e =>
          get_coordinates_batch w rest
            (pyDictInsert acc (normalize city) (entryToPyVal e))
            { s with sleeps := s.sleeps + 1 }

/-- Snapshot returned by `get_cache_stats` (lines 124-133). -/
structure CacheStats where
  total : ℕ
  valid : ℕ
  invalid : ℕ
  hits : ℕ
  misses : ℕ
deriving DecidableEq, Repr

/-- Embedding of `get_cache_stats` (lines 124-133). -/
def get_cache_stats (s : St) : CacheStats :=
  { total := s.cache.length
    valid := (s.cache.filter (fun p => decide (p.2 ≠ CacheEntry.invalid))).length
    invalid := (s.cache.filter (fun p => decide (p.2 = CacheEntry.invalid))).length
    hits := s.cache_hits
    misses := s.cache_misses }

/-- Embedding of `clear_cache` (lines 135-138). -/
def clear_cache (s : St) : St :=
  { s with cache := [], cache_hits := 0, cache_misses := 0 }

/-- One public operation on a session object. -/
inductive Op
  | getCoords (city : String)
  | validate (city : String)
  | distKm (city1 city2 : String)
  | dist (city1 city2 : String) (unit : String)
  | matrix (cities : List String)
  | batch (cities : List String)
  | exportM (df : DistanceMatrix) (filename : String) (format : String)
  | stats
  | clear

/-- State reached by a computation, whether it returned or raised (the object
fields survive an escaping exception). -/
def stOf {α : Type} : Except St (α × St) → St
  | .ok (_, s) => s
  | .error s => s

/-- Session state after one operation.  `export_matrix` and `get_cache_stats`
read no mutable session field, so they leave the state unchanged. -/
def runOp (g : Geodesic) (w : World) (s : St) : Op → St
  | .getCoords c => stOf (get_coordinates w s c)
  | .validate c => stOf (validate_city w s c)
  | .distKm a b => stOf (calculate_distance_km g w s a b)
  | .dist a b u => stOf (calculate_distance g w s a b u)
  | .matrix cs => stOf (create_distance_matrix g w s cs)
  | .batch cs => stOf (get_coordinates_batch w cs [] s)
  | .exportM _ _ _ => s
  | .stats => s
  | .clear => clear_cache s

/-- Coordinate a cache entry yields through line 21 (`"INVALID"` becomes
`None`). -/
def entryCoord : CacheEntry → Option Coord
  | .resolved c => some c
  | .invalid => none

/-- Cache entry stored for a completed fresh lookup with outcome `o`. -/
def optEntry : Option Coord → CacheEntry
  | some c => .resolved c
  | none => .invalid

/-- Relation between two session states: every existing cache entry survives
unchanged, and key uniqueness survives. -/
def CachePreserves (s s' : St) : Prop :=
  (∀ k e, cacheLookup s.cache k = some e → cacheLookup s'.cache k = some e) ∧
  ((s.cache.map Prod.fst).Nodup → (s'.cache.map Prod.fst).Nodup)

/-- Cell of a distance matrix at row `i`, column `j` (`none` if out of range). -/
def cellAt (df : DistanceMatrix) (i j : ℕ) : Option (Option ℚ) :=
  (df.rows.get? i).bind (fun row => row.get? j)

instance instDecEqExcept {e a : Type} [DecidableEq e] [DecidableEq a] :
    DecidableEq (Except e a) := fun x y =>
  match x, y with
  | .ok v, .ok v2 =>
      if h : v = v2 then isTrue (by rw [h]) else isFalse (by intro hc; cases hc; exact h rfl)
  | .error v, .error v2 =>
      if h : v = v2 then isTrue (by rw [h]) else isFalse (by intro hc; cases hc; exact h rfl)
  | .ok _, .error _ => isFalse (by intro hc; cases hc)
  | .error _, .ok _ => isFalse (by intro hc; cases hc)

def initSt : St := { cache := [], cache_hits := 0, cache_misses := 0, requests := 0, sleeps := 0 }

def wEmpty : World := fun _ => Response.ok []

def wAB : World := fun n =>
  if n = "A" then Response.ok [⟨FieldVal.num 1, FieldVal.num 1⟩]
  else if n = "B" then Response.ok [⟨FieldVal.num 2, FieldVal.num 2⟩]
  else Response.ok []

def wNoLat : World := fun _ => Response.ok [⟨FieldVal.missing, FieldVal.num 25⟩]

def wBadLon : World := fun _ => Response.ok [⟨FieldVal.num 54, FieldVal.notNum⟩]

def gKm1247 : Geodesic := fun _ _ => 1247 / 1000

def stA : St := { cache := [("A", CacheEntry.resolved (1, 1))], cache_hits := 0, cache_misses := 1, requests := 1, sleeps := 1 }

def stAB : St := { cache := [("B", CacheEntry.resolved (2, 2)), ("A", CacheEntry.resolved (1, 1))], cache_hits := 0, cache_misses := 2, requests := 2, sleeps := 2 }

def stU : St := { cache := [("Unknowncity", CacheEntry.invalid)], cache_hits := 0, cache_misses := 1, requests := 1, sleeps := 1 }

def dfEmpty : DistanceMatrix := { labels := [], rows := [] }

def stBinv : St := { cache := [("B", CacheEntry.invalid)], cache_hits := 0, cache_misses := 1, requests := 1, sleeps := 1 }

def dfABA : DistanceMatrix :=
  { labels := ["A", "B", "A"],
    rows := [[some 0, none, some 0], [none, some 0, none], [some 0, none, some 0]] }

def stABA : St := { cache := [("A", CacheEntry.resolved (1, 1)), ("B", CacheEntry.invalid)], cache_hits := 2, cache_misses := 2, requests := 2, sleeps := 2 }

def dfXX : DistanceMatrix := { labels := ["X", "X"], rows := [[some 0, some 0], [some 0, some 0]] }

def stXinv : St := { cache := [("X", CacheEntry.invalid)], cache_hits := 1, cache_misses := 1, requests := 1, sleeps := 1 }

def dfAB2 : DistanceMatrix :=
  { labels := ["A", "B"], rows := [[some 0, some (5 / 4)], [some (5 / 4), some 0]] }

/-- Complete case analysis of `get_coordinates`. -/
theorem get_coordinates_spec (w : World) (s : St) (city : String) :
    (∃ e, cacheLookup s.cache (normalize city) = some e ∧
       get_coordinates w s city =
         .ok (entryCoord e, { s with cache_hits := s.cache_hits + 1 })) ∨
    (cacheLookup s.cache (normalize city) = none ∧
      ((∃ o, get_coordinates w s city =
          .ok (o, { s with cache := (normalize city, optEntry o) :: s.cache,
                           cache_misses := s.cache_misses + 1,
                           requests := s.requests + 1,
                           sleeps := s.sleeps + 1 })) ∨
       (get_coordinates w s city =
          .error { s with cache_misses := s.cache_misses + 1,
                          requests := s.requests + 1,
                          sleeps := s.sleeps + 1 }))) := by
  cases hm : cacheLookup s.cache (normalize city) with
  | some e =>
      left
      refine ⟨e, rfl, ?_⟩
      unfold get_coordinates
      simp only [hm]
      cases e <;> rfl
  | none =>
      right
      refine ⟨rfl, ?_⟩
      unfold get_coordinates
      simp only [hm]
      cases hw : w (normalize city) with
      | ok rs =>
          cases rs with
          | nil =>
              simp only [hw]
              exact Or.inl ⟨none, rfl⟩
          | cons r rs' =>
              simp only [hw]
              cases hl : parseField r.lat with
              | some la =>
                  cases ho : parseField r.lon with
                  | some lo =>
                      simp only [hl, ho]
                      exact Or.inl ⟨some (la, lo), rfl⟩
                  | none =>
                      simp only [hl, ho]
                      exact Or.inr trivial
              | none =>
                  simp only [hl]
                  exact Or.inr trivial
      | timeout =>
          simp only [hw]
          exact Or.inl ⟨none, rfl⟩
      | tooManyRedirects =>
          simp only [hw]
          exact Or.inl ⟨none, rfl⟩
      | requestError =>
          simp only [hw]
          exact Or.inl ⟨none, rfl⟩

/-- Cache-hit branch: the cached value is returned through line 21 and only
the hit counter moves. -/
theorem get_coordinates_hit (w : World) (s : St) (city : String) (e : CacheEntry)
    (h : cacheLookup s.cache (normalize city) = some e) :
    get_coordinates w s city =
      .ok (entryCoord e, { s with cache_hits := s.cache_hits + 1 }) := by
  rcases get_coordinates_spec w s city with ⟨e', he', hg⟩ | ⟨hm, _⟩
  · have he : e' = e := Option.some.inj (he'.symm.trans h)
    subst he
    exact hg
  · rw [h] at hm
    cases hm

/-- Cache-miss branch with a normal return: the outcome is cached, and the
miss, request and sleep counters each advance by one. -/
theorem get_coordinates_miss_ok (w : World) (s : St) (city : String)
    (o : Option Coord) (s' : St)
    (hm : cacheLookup s.cache (normalize city) = none)
    (h : get_coordinates w s city = .ok (o, s')) :
    s' = { s with cache := (normalize city, optEntry o) :: s.cache,
                  cache_misses := s.cache_misses + 1,
                  requests := s.requests + 1,
                  sleeps := s.sleeps + 1 } := by
  rcases get_coordinates_spec w s city with ⟨e, he, hg⟩ | ⟨_, ⟨o', hg⟩ | hg⟩
  · rw [hm] at he
    cases he
  · rw [h] at hg
    simp only [Except.ok.injEq, Prod.mk.injEq] at hg
    rw [hg.1]
    exact hg.2
  · rw [h] at hg
    simp at hg

/-- An escaping exception implies a cache miss on a malformed first result:
nothing is cached, the miss, request and sleep counters each advance by one
(the `finally` sleep runs before the raise propagates). -/
theorem get_coordinates_error_state (w : World) (s : St) (city : String) (s' : St)
    (h : get_coordinates w s city = .error s') :
    cacheLookup s.cache (normalize city) = none ∧
    s' = { s with cache_misses := s.cache_misses + 1,
                  requests := s.requests + 1, sleeps := s.sleeps + 1 } := by
  rcases get_coordinates_spec w s city with ⟨e, he, hg⟩ | ⟨hm, ⟨o', hg⟩ | hg⟩
  · rw [h] at hg
    simp at hg
  · rw [h] at hg
    simp at hg
  · rw [h] at hg
    simp only [Except.error.injEq] at hg
    exact ⟨hm, hg⟩

/-- Absence of a cache key is absence from the key list. -/
theorem cacheLookup_eq_none_iff (m : List (String × CacheEntry)) (k : String) :
    cacheLookup m k = none ↔ k ∉ m.map Prod.fst := by
  induction m with
  | nil => simp [cacheLookup]
  | cons p rest ih =>
      obtain ⟨k', v⟩ := p
      by_cases hk : k' = k
      · subst hk
        simp [cacheLookup]
      · simp only [cacheLookup, if_neg hk, List.map_cons, List.mem_cons, ih]
        constructor
        · intro hnot hor
          rcases hor with h1 | h2
          · exact hk h1.symm
          · exact hnot h2
        · intro hnot h2
          exact hnot (Or.inr h2)

theorem cachePreserves_of_eq {s s' : St} (h : s'.cache = s.cache) :
    CachePreserves s s' := by
  constructor
  · intro k e hk
    rw [h]
    exact hk
  · intro hn
    rw [h]
    exact hn

theorem cachePreserves_trans {s t u : St}
    (h1 : CachePreserves s t) (h2 : CachePreserves t u) : CachePreserves s u :=
  ⟨fun k e hk => h2.1 k e (h1.1 k e hk), fun hn => h2.2 (h1.2 hn)⟩

theorem cachePreserves_cons {s s' : St} (key : String) (v : CacheEntry)
    (hnone : cacheLookup s.cache key = none)
    (h : s'.cache = (key, v) :: s.cache) : CachePreserves s s' := by
  constructor
  · intro k e hk
    rw [h]
    have hne : key ≠ k := by
      intro hkk
      subst hkk
      rw [hnone] at hk
      cases hk
    simp only [cacheLookup, if_neg hne]
    exact hk
  · intro hn
    rw [h]
    simp only [List.map_cons, List.nodup_cons]
    exact ⟨(cacheLookup_eq_none_iff _ _).1 hnone, hn⟩

/-- `get_coordinates` preserves the cache on every exit path. -/
theorem get_coordinates_preserves (w : World) (s : St) (city : String) :
    CachePreserves s (stOf (get_coordinates w s city)) := by
  rcases get_coordinates_spec w s city with ⟨e, he, hg⟩ | ⟨hm, ⟨o, hg⟩ | hg⟩
  · rw [hg]
    exact cachePreserves_of_eq rfl
  · rw [hg]
    exact cachePreserves_cons (normalize city) (optEntry o) hm rfl
  · rw [hg]
    exact cachePreserves_of_eq rfl

theorem get_coordinates_ok_preserves (w : World) (s : St) (city : String)
    (o : Option Coord) (s' : St) (h : get_coordinates w s city = .ok (o, s')) :
    CachePreserves s s' := by
  have hp := get_coordinates_preserves w s city
  rw [h] at hp
  exact hp

/-- After a normal return, the normalized name is cached with the entry
matching the returned value. -/
theorem get_coordinates_ok_post (w : World) (s : St) (city : String)
    (o : Option Coord) (s' : St) (h : get_coordinates w s city = .ok (o, s')) :
    cacheLookup s'.cache (normalize city) = some (optEntry o) := by
  rcases get_coordinates_spec w s city with ⟨e, he, hg⟩ | ⟨hm, ⟨o', hg⟩ | hg⟩
  · rw [h] at hg
    simp only [Except.ok.injEq, Prod.mk.injEq] at hg
    obtain ⟨ho, hs⟩ := hg
    rw [hs]
    cases e with
    | resolved c =>
        rw [ho]
        simpa using he
    | invalid =>
        rw [ho]
        simpa using he
  · rw [h] at hg
    simp only [Except.ok.injEq, Prod.mk.injEq] at hg
    obtain ⟨ho, hs⟩ := hg
    rw [hs, ho]
    simp [cacheLookup]
  · rw [h] at hg
    simp at hg

/-- Sleep counter never decreases across a normal return. -/
theorem get_coordinates_ok_sleeps_le (w : World) (s : St) (city : String)
    (o : Option Coord) (s' : St) (h : get_coordinates w s city = .ok (o, s')) :
    s.sleeps ≤ s'.sleeps := by
  rcases get_coordinates_spec w s city with ⟨e, he, hg⟩ | ⟨hm, ⟨o', hg⟩ | hg⟩
  · rw [h] at hg
    simp only [Except.ok.injEq, Prod.mk.injEq] at hg
    rw [hg.2]
  · rw [h] at hg
    simp only [Except.ok.injEq, Prod.mk.injEq] at hg
    rw [hg.2]
    exact Nat.le_succ _
  · rw [h] at hg
    simp at hg

theorem pyDictLookup_insert_self {α : Type} (m : List (String × α)) (k : String) (v : α) :
    pyDictLookup (pyDictInsert m k v) k = some v := by
  induction m with
  | nil => simp [pyDictInsert, pyDictLookup]
  | cons p rest ih =>
      obtain ⟨k', v'⟩ := p
      by_cases hk : k' = k
      · subst hk
        simp [pyDictInsert, pyDictLookup]
      · simp [pyDictInsert, pyDictLookup, hk, ih]

theorem pyDictLookup_insert_ne {α : Type} (m : List (String × α)) (k c : String) (v : α)
    (h : k ≠ c) : pyDictLookup (pyDictInsert m k v) c = pyDictLookup m c := by
  induction m with
  | nil => simp [pyDictInsert, pyDictLookup, h]
  | cons p rest ih =>
      obtain ⟨k', v'⟩ := p
      by_cases hk : k' = k
      · subst hk
        simp [pyDictInsert, pyDictLookup, h]
      · by_cases hc : k' = c
        · subst hc
          simp [pyDictInsert, pyDictLookup, hk]
        · simp [pyDictInsert, pyDictLookup, hk, hc, ih]

theorem entryCoord_optEntry (o : Option Coord) : entryCoord (optEntry o) = o := by
  cases o <;> rfl

/-- Main invariant of the dict comprehension of line 88: every entry of the
result dict matches the cache entry of its key in the final state, and every
processed city (plus every key already present) is a key of the result. -/
theorem buildCoords_inv (w : World) (cities : List String)
    (hn : ∀ c ∈ cities, normalize c = c) :
    ∀ (acc : List (String × Option Coord)) (s : St)
      (m : List (String × Option Coord)) (s' : St),
    buildCoords w cities acc s = .ok (m, s') →
    (∀ c o, pyDictLookup acc c = some o →
        ∃ e, cacheLookup s.cache c = some e ∧ entryCoord e = o) →
    ((∀ c o, pyDictLookup m c = some o →
        ∃ e, cacheLookup s'.cache c = some e ∧ entryCoord e = o) ∧
     (∀ c, c ∈ cities → (pyDictLookup m c).isSome = true) ∧
     (∀ c, (pyDictLookup acc c).isSome = true → (pyDictLookup m c).isSome = true)) := by
  induction cities with
  | nil =>
      intro acc s m s' h hinv
      simp only [buildCoords, Except.ok.injEq, Prod.mk.injEq] at h
      obtain ⟨hm, hs⟩ := h
      subst hm
      subst hs
      refine ⟨hinv, ?_, ?_⟩
      · intro c hc
        cases hc
      · intro c hc
        exact hc
  | cons city rest ih =>
      intro acc s m s' h hinv
      have hcity : normalize city = city := hn city (by simp)
      have hnr : ∀ c ∈ rest, normalize c = c := fun c hc => hn c (by simp [hc])
      cases hg : get_coordinates w s city with
      | error s1 =>
          simp only [buildCoords, hg] at h
          exact (Except.noConfusion h)
      | ok p =>
          obtain ⟨o, s1⟩ := p
          simp only [buildCoords, hg] at h
          have hpres := get_coordinates_ok_preserves w s city o s1 hg
          have hpost := get_coordinates_ok_post w s city o s1 hg
          rw [hcity] at hpost
          have hinv1 : ∀ c o2, pyDictLookup (pyDictInsert acc city o) c = some o2 →
              ∃ e, cacheLookup s1.cache c = some e ∧ entryCoord e = o2 := by
            intro c o2 hc
            by_cases hcc : city = c
            · subst hcc
              rw [pyDictLookup_insert_self] at hc
              obtain rfl : o = o2 := Option.some.inj hc
              exact ⟨optEntry o, hpost, entryCoord_optEntry o⟩
            · rw [pyDictLookup_insert_ne acc city c o hcc] at hc
              obtain ⟨e, he, heo⟩ := hinv c o2 hc
              exact ⟨e, hpres.1 c e he, heo⟩
          obtain ⟨h1, h2, h3⟩ := ih hnr (pyDictInsert acc city o) s1 m s' h hinv1
          refine ⟨h1, ?_, ?_⟩
          · intro c hc
            rcases List.mem_cons.1 hc with rfl | hcr
            · exact h3 c (by rw [pyDictLookup_insert_self]; rfl)
            · exact h2 c hcr
          · intro c hc
            by_cases hcc : city = c
            · subst hcc
              exact h3 city (by rw [pyDictLookup_insert_self]; rfl)
            · refine h3 c ?_
              rw [pyDictLookup_insert_ne acc city c o hcc]
              exact hc

/-- `buildCoords` preserves the cache on every exit path. -/
theorem buildCoords_preserves (w : World) (cities : List String) :
    ∀ (acc : List (String × Option Coord)) (s : St),
    CachePreserves s (stOf (buildCoords w cities acc s)) := by
  induction cities with
  | nil =>
      intro acc s
      exact cachePreserves_of_eq rfl
  | cons city rest ih =>
      intro acc s
      cases hg : get_coordinates w s city with
      | error s1 =>
          simp only [buildCoords, hg]
          have hp := get_coordinates_preserves w s city
          rw [hg] at hp
          exact hp
      | ok p =>
          obtain ⟨o, s1⟩ := p
          simp only [buildCoords, hg]
          exact cachePreserves_trans (get_coordinates_ok_preserves w s city o s1 hg)
            (ih (pyDictInsert acc city o) s1)

/-- Helper for counting: adding one element to a finite set. -/
theorem card_insert_eq_card_erase_add_one {α : Type} [DecidableEq α]
    (s : Finset α) (a : α) : (insert a s).card = (s.erase a).card + 1 := by
  have h : insert a s = insert a (s.erase a) := by
    ext x
    simp only [Finset.mem_insert, Finset.mem_erase]
    constructor
    · intro hx
      rcases hx with rfl | hx
      · exact Or.inl rfl
      · by_cases hxa : x = a
        · exact Or.inl hxa
        · exact Or.inr ⟨hxa, hx⟩
    · intro hx
      rcases hx with rfl | ⟨_, hx⟩
      · exact Or.inl rfl
      · exact Or.inr hx
  rw [h, Finset.card_insert_of_not_mem (Finset.not_mem_erase a s)]

/-- Request count of the resolution pass: one request per distinct name not in
the cache at the start. -/
theorem buildCoords_requests (w : World) (cities : List String)
    (hn : ∀ c ∈ cities, normalize c = c) :
    ∀ (acc : List (String × Option Coord)) (s : St)
      (m : List (String × Option Coord)) (s' : St),
    buildCoords w cities acc s = .ok (m, s') →
    s'.requests = s.requests +
      (cities.toFinset.filter (fun c => cacheLookup s.cache c = none)).card := by
  induction cities with
  | nil =>
      intro acc s m s' h
      simp only [buildCoords, Except.ok.injEq, Prod.mk.injEq] at h
      rw [← h.2]
      simp
  | cons city rest ih =>
      intro acc s m s' h
      have hcity : normalize city = city := hn city (by simp)
      have hnr : ∀ c ∈ rest, normalize c = c := fun c hc => hn c (by simp [hc])
      cases hg : get_coordinates w s city with
      | error s1 =>
          simp only [buildCoords, hg] at h
          exact (Except.noConfusion h)
      | ok p =>
          obtain ⟨o, s1⟩ := p
          simp only [buildCoords, hg] at h
          have hrec := ih hnr (pyDictInsert acc city o) s1 m s' h
          cases hm : cacheLookup s.cache city with
          | some e =>
              have hhit := get_coordinates_hit w s city e (by rw [hcity]; exact hm)
              rw [hg] at hhit
              simp only [Except.ok.injEq, Prod.mk.injEq] at hhit
              have hs1 : s1 = { s with cache_hits := s.cache_hits + 1 } := hhit.2
              rw [hrec, hs1]
              have hfe : rest.toFinset.filter
                    (fun c => cacheLookup ({ s with cache_hits := s.cache_hits + 1 } : St).cache c = none) =
                  rest.toFinset.filter (fun c => cacheLookup s.cache c = none) := rfl
              rw [hfe]
              simp only [List.toFinset_cons]
              rw [Finset.filter_insert]
              rw [if_neg (by simp [hm])]
          | none =>
              have hmiss := get_coordinates_miss_ok w s city o s1 (by rw [hcity]; exact hm) hg
              rw [hrec, hmiss]
              simp only [hcity]
              have hfe : rest.toFinset.filter
                    (fun c => cacheLookup ((city, optEntry o) :: s.cache) c = none) =
                  (rest.toFinset.filter (fun c => cacheLookup s.cache c = none)).erase city := by
                ext x
                simp only [Finset.mem_filter, Finset.mem_erase, cacheLookup]
                constructor
                · intro ⟨hx, hl⟩
                  by_cases hxc : city = x
                  · rw [if_pos hxc] at hl
                    cases hl
                  · rw [if_neg hxc] at hl
                    exact ⟨fun hh => hxc hh.symm, hx, hl⟩
                · intro ⟨hne, hx, hl⟩
                  refine ⟨hx, ?_⟩
                  rw [if_neg (fun hh => hne hh.symm)]
                  exact hl
              rw [hfe]
              simp only [List.toFinset_cons]
              rw [Finset.filter_insert, if_pos hm, card_insert_eq_card_erase_add_one]
              omega

/-- Fully cached batch: every loop iteration takes the cached branch, so the
only state change is one sleep per name. -/
theorem batch_all_cached (w : World) (cities : List String) :
    ∀ (acc : List (String × PyVal)) (s : St),
    (∀ city ∈ cities, (cacheLookup s.cache (normalize city)).isSome = true) →
    ∃ out, get_coordinates_batch w cities acc s =
      .ok (out, { s with sleeps := s.sleeps + cities.length }) := by
  induction cities with
  | nil =>
      intro acc s _
      exact ⟨acc, rfl⟩
  | cons city rest ih =>
      intro acc s hall
      have hc := hall city (by simp)
      cases hm : cacheLookup s.cache (normalize city) with
      | none => rw [hm] at hc; cases hc
      | some e =>
          have hrest : ∀ c ∈ rest,
              (cacheLookup ({ s with sleeps := s.sleeps + 1 } : St).cache (normalize c)).isSome = true :=
            fun c hcr => hall c (by simp [hcr])
          obtain ⟨out, hout⟩ := ih (pyDictInsert acc (normalize city) (entryToPyVal e))
            { s with sleeps := s.sleeps + 1 } hrest
          refine ⟨out, ?_⟩
          simp only [get_coordinates_batch, hm]
          rw [hout]
          have harith : s.sleeps + 1 + rest.length = s.sleeps + (city :: rest).length := by
            simp only [List.length_cons]
            omega
          simp only [harith]

/-- Each loop iteration of the batch sleeps at least once. -/
theorem batch_sleeps_lower (w : World) (cities : List String) :
    ∀ (acc : List (String × PyVal)) (s : St) (out : List (String × PyVal)) (s' : St),
    get_coordinates_batch w cities acc s = .ok (out, s') →
    s.sleeps + cities.length ≤ s'.sleeps := by
  induction cities with
  | nil =>
      intro acc s out s' h
      simp only [get_coordinates_batch, Except.ok.injEq, Prod.mk.injEq] at h
      rw [← h.2]
      simp
  | cons city rest ih =>
      intro acc s out s' h
      cases hm : cacheLookup s.cache (normalize city) with
      | some e =>
          simp only [get_coordinates_batch, hm] at h
          have h2 : s.sleeps + 1 + rest.length ≤ s'.sleeps := ih _ _ _ _ h
          simp only [List.length_cons]
          omega
      | none =>
          simp only [get_coordinates_batch, hm] at h
          cases hg : get_coordinates w s (normalize city) with
          | error s1 =>
              rw [hg] at h
              exact (Except.noConfusion h)
          | ok p =>
              obtain ⟨o, s1⟩ := p
              rw [hg] at h
              have h1 : s.sleeps ≤ s1.sleeps :=
                get_coordinates_ok_sleeps_le w s (normalize city) o s1 hg
              have h2 : s1.sleeps + 1 + rest.length ≤ s'.sleeps := ih _ _ _ _ h
              simp only [List.length_cons]
              omega

/-- `get_coordinates_batch` preserves the cache on every exit path. -/
theorem batch_preserves (w : World) (cities : List String) :
    ∀ (acc : List (String × PyVal)) (s : St),
    CachePreserves s (stOf (get_coordinates_batch w cities acc s)) := by
  induction cities with
  | nil =>
      intro acc s
      exact cachePreserves_of_eq rfl
  | cons city rest ih =>
      intro acc s
      cases hm : cacheLookup s.cache (normalize city) with
      | some e =>
          simp only [get_coordinates_batch, hm]
          exact cachePreserves_trans (cachePreserves_of_eq rfl)
            (ih (pyDictInsert acc (normalize city) (entryToPyVal e))
              { s with sleeps := s.sleeps + 1 })
      | none =>
          simp only [get_coordinates_batch, hm]
          cases hg : get_coordinates w s (normalize city) with
          | error s1 =>
              have hp := get_coordinates_preserves w s (normalize city)
              rw [hg] at hp
              exact hp
          | ok p =>
              obtain ⟨o, s1⟩ := p
              have hp := get_coordinates_ok_preserves w s (normalize city) o s1 hg
              refine cachePreserves_trans hp (cachePreserves_trans (cachePreserves_of_eq rfl) ?_)
              exact ih _ { s1 with sleeps := s1.sleeps + 1 }

/-- `validate_city` preserves the cache on every exit path. -/
theorem validate_city_preserves (w : World) (s : St) (city : String) :
    CachePreserves s (stOf (validate_city w s city)) := by
  cases hm : cacheLookup s.cache (normalize city) with
  | some e =>
      simp only [validate_city, hm]
      exact cachePreserves_of_eq rfl
  | none =>
      simp only [validate_city, hm]
      cases hg : get_coordinates w s (normalize city) with
      | error s1 =>
          have hp := get_coordinates_preserves w s (normalize city)
          rw [hg] at hp
          exact hp
      | ok p =>
          obtain ⟨o, s1⟩ := p
          have hp := get_coordinates_ok_preserves w s (normalize city) o s1 hg
          exact hp

/-- `calculate_distance_km` preserves the cache on every exit path. -/
theorem calculate_distance_km_preserves (g : Geodesic) (w : World) (s : St)
    (city1 city2 : String) :
    CachePreserves s (stOf (calculate_distance_km g w s city1 city2)) := by
  cases h1 : get_coordinates w s city1 with
  | error s1 =>
      simp only [calculate_distance_km, h1]
      have hp := get_coordinates_preserves w s city1
      rw [h1] at hp
      exact hp
  | ok p =>
      obtain ⟨o1, s1⟩ := p
      have hp1 := get_coordinates_ok_preserves w s city1 o1 s1 h1
      cases h2 : get_coordinates w s1 city2 with
      | error s2 =>
          simp only [calculate_distance_km, h1, h2]
          have hp2 := get_coordinates_preserves w s1 city2
          rw [h2] at hp2
          exact cachePreserves_trans hp1 hp2
      | ok q =>
          obtain ⟨o2, s2⟩ := q
          have hp2 := get_coordinates_ok_preserves w s1 city2 o2 s2 h2
          simp only [calculate_distance_km, h1, h2]
          cases o1 with
          | none =>
              cases o2 with
              | none => exact cachePreserves_trans hp1 hp2
              | some c2 => exact cachePreserves_trans hp1 hp2
          | some c1 =>
              cases o2 with
              | none => exact cachePreserves_trans hp1 hp2
              | some c2 => exact cachePreserves_trans hp1 hp2

/-- `calculate_distance` preserves the cache on every exit path. -/
theorem calculate_distance_preserves (g : Geodesic) (w : World) (s : St)
    (city1 city2 : String) (unit : String) :
    CachePreserves s (stOf (calculate_distance g w s city1 city2 unit)) := by
  cases h1 : get_coordinates w s city1 with
  | error s1 =>
      simp only [calculate_distance, h1]
      have hp := get_coordinates_preserves w s city1
      rw [h1] at hp
      exact hp
  | ok p =>
      obtain ⟨o1, s1⟩ := p
      have hp1 := get_coordinates_ok_preserves w s city1 o1 s1 h1
      cases h2 : get_coordinates w s1 city2 with
      | error s2 =>
          simp only [calculate_distance, h1, h2]
          have hp2 := get_coordinates_preserves w s1 city2
          rw [h2] at hp2
          exact cachePreserves_trans hp1 hp2
      | ok q =>
          obtain ⟨o2, s2⟩ := q
          have hp2 := get_coordinates_ok_preserves w s1 city2 o2 s2 h2
          simp only [calculate_distance, h1, h2]
          cases o1 with
          | none =>
              cases o2 with
              | none => exact cachePreserves_trans hp1 hp2
              | some c2 => exact cachePreserves_trans hp1 hp2
          | some c1 =>
              cases o2 with
              | none => exact cachePreserves_trans hp1 hp2
              | some c2 =>
                  by_cases hu : unit = "miles"
                  · simp only [if_pos hu]
                    exact cachePreserves_trans hp1 hp2
                  · simp only [if_neg hu]
                    exact cachePreserves_trans hp1 hp2

/-- `create_distance_matrix` preserves the cache on every exit path. -/
theorem create_distance_matrix_preserves (g : Geodesic) (w : World) (s : St)
    (city_list : List String) :
    CachePreserves s (stOf (create_distance_matrix g w s city_list)) := by
  cases hb : buildCoords w (city_list.map normalize) [] s with
  | error s1 =>
      simp only [create_distance_matrix, hb]
      have hp := buildCoords_preserves w (city_list.map normalize) [] s
      rw [hb] at hp
      exact hp
  | ok p =>
      obtain ⟨coords, s1⟩ := p
      simp only [create_distance_matrix, hb]
      have hp := buildCoords_preserves w (city_list.map normalize) [] s
      rw [hb] at hp
      exact hp

/-- C1 (corrected) counterexample: the input list repeats the single name
`"X"`, which fails to resolve (cached Invalid in the final state); positions
0 and 1 differ, yet cell (0, 1) is 0.0, not absent: line 94 compares names,
not positions. -/
theorem claim_C1_counterexample :
    create_distance_matrix gKm1247 wEmpty initSt ["X", "X"] = .ok (dfXX, stXinv) ∧
    cacheLookup stXinv.cache "X" = some CacheEntry.invalid ∧
    cellAt dfXX 0 1 = some (some 0) ∧
    ¬cellAt dfXX 0 1 = some none := by
  refine ⟨?_, by decide, by simp [cellAt, dfXX], by simp [cellAt, dfXX]⟩
  simp +decide [create_distance_matrix, buildCoords, get_coordinates, matrixCell, pyDictInsert,
    pyDictLookup, wEmpty, initSt, dfXX, stXinv, cacheLookup, normalize, pyStrip, titleStep,
    parseField, gKm1247]

/-- C1 (corrected, amended): a cell at pair (i, j) is 0.0 whenever the
normalized names at positions i and j are EQUAL (hence always on the
diagonal, but also at distinct positions holding the same name, even an
unresolved one); for distinct names the cell is the rounded geodesic
kilometre distance when both resolved, and absent otherwise. -/
theorem claim_C1_amended (g : Geodesic) (w : World) (s : St) (city_list : List String)
    (df : DistanceMatrix) (s' : St) (i j : ℕ) (ci cj : String)
    (hid : ∀ city ∈ city_list, normalize (normalize city) = normalize city)
    (hrun : create_distance_matrix g w s city_list = .ok (df, s'))
    (hci : (city_list.map normalize).get? i = some ci)
    (hcj : (city_list.map normalize).get? j = some cj) :
    (ci = cj → cellAt df i j = some (some 0)) ∧
    (∀ a b, ci ≠ cj → cacheLookup s'.cache ci = some (CacheEntry.resolved a) →
        cacheLookup s'.cache cj = some (CacheEntry.resolved b) →
        cellAt df i j = some (some (roundTo2 (g a b)))) ∧
    (ci ≠ cj → (cacheLookup s'.cache ci = some CacheEntry.invalid ∨
                cacheLookup s'.cache cj = some CacheEntry.invalid) →
        cellAt df i j = some none) := by
  have hn : ∀ c ∈ city_list.map normalize, normalize c = c := by
    intro c hc
    obtain ⟨x, hx, rfl⟩ := List.mem_map.1 hc
    exact hid x hx
  cases hb : buildCoords w (city_list.map normalize) [] s with
  | error s1 =>
      simp only [create_distance_matrix, hb] at hrun
      exact (Except.noConfusion hrun)
  | ok p =>
      obtain ⟨coords, s1⟩ := p
      simp only [create_distance_matrix, hb, Except.ok.injEq, Prod.mk.injEq] at hrun
      obtain ⟨hdf, hs⟩ := hrun
      subst hs
      have hrows : df.rows = (city_list.map normalize).map
          (fun c1 => (city_list.map normalize).map (fun c2 => matrixCell g coords c1 c2)) := by
        rw [← hdf]
      have hcell : cellAt df i j = some (matrixCell g coords ci cj) := by
        simp only [cellAt, hrows, List.get?_map, hci, hcj, Option.map_some', Option.some_bind]
      have hinv := buildCoords_inv w (city_list.map normalize) hn [] s coords s1 hb
        (by intro c o hc; simp [pyDictLookup] at hc)
      obtain ⟨hagree, hkeys, _⟩ := hinv
      have hmi : ci ∈ city_list.map normalize := List.get?_mem hci
      have hmj : cj ∈ city_list.map normalize := List.get?_mem hcj
      obtain ⟨oi, hoi⟩ := Option.isSome_iff_exists.1 (hkeys ci hmi)
      obtain ⟨oj, hoj⟩ := Option.isSome_iff_exists.1 (hkeys cj hmj)
      obtain ⟨ei, hei, heoi⟩ := hagree ci oi hoi
      obtain ⟨ej, hej, heoj⟩ := hagree cj oj hoj
      refine ⟨?_, ?_, ?_⟩
      · intro hij
        rw [hcell]
        simp [matrixCell, hij]
      · intro a b hne hca hcb
        have hia : ei = CacheEntry.resolved a := Option.some.inj (hei.symm.trans hca)
        have hjb : ej = CacheEntry.resolved b := Option.some.inj (hej.symm.trans hcb)
        rw [hia] at heoi
        rw [hjb] at heoj
        simp only [entryCoord] at heoi heoj
        rw [← heoi] at hoi
        rw [← heoj] at hoj
        rw [hcell]
        simp [matrixCell, if_neg hne, hoi, hoj]
      · intro hne hbad
        rw [hcell]
        rcases hbad with hca | hcb
        · have hia : ei = CacheEntry.invalid := Option.some.inj (hei.symm.trans hca)
          rw [hia] at heoi
          simp only [entryCoord] at heoi
          rw [← heoi] at hoi
          cases oj with
          | none => simp [matrixCell, if_neg hne, hoi, hoj]
          | some cjc => simp [matrixCell, if_neg hne, hoi, hoj]
        · have hjb : ej = CacheEntry.invalid := Option.some.inj (hej.symm.trans hcb)
          rw [hjb] at heoj
          simp only [entryCoord] at heoj
          rw [← heoj] at hoj
          cases oi with
          | none => simp [matrixCell, if_neg hne, hoi, hoj]
          | some cic => simp [matrixCell, if_neg hne, hoi, hoj]

/-- Witness for C1 (amended): a 2×2 matrix over two resolved names. -/
theorem claim_C1_witness :
    create_distance_matrix gKm1247 wAB initSt ["A", "B"] = .ok (dfAB2, stAB) ∧
    cellAt dfAB2 0 0 = some (some 0) ∧
    cellAt dfAB2 0 1 = some (some (roundTo2 (gKm1247 (1, 1) (2, 2)))) := by
  have hrun : create_distance_matrix gKm1247 wAB initSt ["A", "B"] = .ok (dfAB2, stAB) := by
    simp +decide [create_distance_matrix, buildCoords, get_coordinates, matrixCell, pyDictInsert,
      pyDictLookup, wAB, initSt, dfAB2, stAB, cacheLookup, normalize, pyStrip, titleStep,
      parseField, gKm1247, roundTo2]
    norm_num [round_eq]
  refine ⟨hrun, ?_, ?_⟩
  · exact (claim_C1_amended gKm1247 wAB initSt ["A", "B"] dfAB2 stAB 0 0 "A" "A"
      (by decide) hrun (by decide) (by decide)).1 rfl
  · exact (claim_C1_amended gKm1247 wAB initSt ["A", "B"] dfAB2 stAB 0 1 "A" "B"
      (by decide) hrun (by decide) (by decide)).2.1 (1, 1) (2, 2) (by decide) (by rfl) (by rfl)

/-- C2 (corrected) counterexample: a well-formed response whose first result
carries a non-numeric `lon` value makes `get_coordinates` raise an uncaught
exception (from `float(..)` on line 39); nothing is cached, contradicting
"never lets an exception escape / recorded as Invalid / reported absent". -/
theorem claim_C2_counterexample :
    get_coordinates wBadLon initSt "Vilnius" =
      .error { cache := [], cache_hits := 0, cache_misses := 1, requests := 1, sleeps := 1 } := by
  simp +decide [get_coordinates, wBadLon, initSt, cacheLookup, normalize, pyStrip, titleStep,
    parseField]

/-- C2 (corrected, amended): the three caught request-level failures and the
zero-result case are absorbed, cached as Invalid and reported absent; but an
escaping exception is possible, exactly on a first result with a missing or
non-numeric `lat`/`lon` field, and on that path nothing is cached. -/
theorem claim_C2_amended (w : World) (s : St) (city : String)
    (hm : cacheLookup s.cache (normalize city) = none) :
    ((w (normalize city) = .timeout ∨ w (normalize city) = .tooManyRedirects ∨
      w (normalize city) = .requestError ∨ w (normalize city) = .ok []) →
      get_coordinates w s city =
        .ok (none, { s with cache := (normalize city, CacheEntry.invalid) :: s.cache,
                            cache_misses := s.cache_misses + 1,
                            requests := s.requests + 1, sleeps := s.sleeps + 1 })) ∧
    (∀ s', get_coordinates w s city = .error s' →
      s'.cache = s.cache ∧
      ∃ r rs, w (normalize city) = .ok (r :: rs) ∧
        (parseField r.lat = none ∨ parseField r.lon = none)) := by
  constructor
  · intro hw
    unfold get_coordinates
    rcases hw with hw | hw | hw | hw <;> simp only [hm, hw]
  · intro s' herr
    have hstate := get_coordinates_error_state w s city s' herr
    refine ⟨by rw [hstate.2], ?_⟩
    unfold get_coordinates at herr
    simp only [hm] at herr
    cases hw : w (normalize city) with
    | ok rs =>
        cases rs with
        | nil =>
            rw [hw] at herr
            simp at herr
        | cons r rs' =>
            rw [hw] at herr
            refine ⟨r, rs', rfl, ?_⟩
            cases hl : parseField r.lat with
            | none => exact Or.inl rfl
            | some la =>
                cases ho : parseField r.lon with
                | none => exact Or.inr rfl
                | some lo =>
                    simp only [hl, ho] at herr
                    exact (Except.noConfusion herr)
    | timeout =>
        rw [hw] at herr
        simp at herr
    | tooManyRedirects =>
        rw [hw] at herr
        simp at herr
    | requestError =>
        rw [hw] at herr
        simp at herr

/-- Witness for C2 (amended): the zero-result branch from a fresh session. -/
theorem claim_C2_witness :
    get_coordinates wEmpty initSt "UnknownCity" =
      .ok (none, { initSt with
                   cache := (normalize "UnknownCity", CacheEntry.invalid) :: initSt.cache,
                   cache_misses := initSt.cache_misses + 1,
                   requests := initSt.requests + 1, sleeps := initSt.sleeps + 1 }) :=
  (claim_C2_amended wEmpty initSt "UnknownCity" (by decide)).1 (Or.inr (Or.inr (Or.inr rfl)))

/-- C3 (corrected) counterexample: with a geodesic distance of 1.247 km, the
code returns 0.77 miles (factor applied to the unrounded kilometres), while
the claimed identity `round(round(km, 2) * 0.621371, 2)` gives 0.78. -/
theorem claim_C3_counterexample :
    calculate_distance gKm1247 wAB initSt "A" "B" "miles" = .ok (some (77 / 100), stAB) ∧
    calculate_distance gKm1247 wAB initSt "A" "B" "km" = .ok (some (5 / 4), stAB) ∧
    roundTo2 (5 / 4 * mileFactor) = 78 / 100 ∧
    (77 / 100 : ℚ) ≠ 78 / 100 := by
  refine ⟨?_, ?_, ?_, by norm_num⟩
  · simp +decide [calculate_distance, get_coordinates, wAB, initSt, stAB, cacheLookup, normalize,
      pyStrip, titleStep, parseField, gKm1247, mileFactor, roundTo2]
    norm_num [round_eq]
  · simp +decide [calculate_distance, get_coordinates, wAB, initSt, stAB, cacheLookup, normalize,
      pyStrip, titleStep, parseField, gKm1247, mileFactor, roundTo2]
    norm_num [round_eq]
  · norm_num [roundTo2, mileFactor, round_eq]

/-- C3 (corrected, amended): the mile figure is the 2-decimal rounding of the
UNROUNDED kilometre distance times 0.621371; the kilometre figure is the
2-decimal rounding of the same unrounded distance.  The spec identity relating
the two rounded outputs does not hold in general. -/
theorem claim_C3_amended (g : Geodesic) (w : World) (s : St) (city1 city2 : String)
    (c1 c2 : Coord) (s1 s2 : St)
    (h1 : get_coordinates w s city1 = .ok (some c1, s1))
    (h2 : get_coordinates w s1 city2 = .ok (some c2, s2)) :
    calculate_distance g w s city1 city2 "miles" =
      .ok (some (roundTo2 (g c1 c2 * mileFactor)), s2) ∧
    calculate_distance g w s city1 city2 "km" = .ok (some (roundTo2 (g c1 c2)), s2) := by
  constructor
  · simp [calculate_distance, h1, h2]
  · simp [calculate_distance, h1, h2]

/-- Witness for C3 (amended) at a concrete resolved pair. -/
theorem claim_C3_witness :
    calculate_distance gKm1247 wAB initSt "A" "B" "miles" =
      .ok (some (roundTo2 (gKm1247 (1, 1) (2, 2) * mileFactor)), stAB) ∧
    calculate_distance gKm1247 wAB initSt "A" "B" "km" =
      .ok (some (roundTo2 (gKm1247 (1, 1) (2, 2))), stAB) := by
  have hA : get_coordinates wAB initSt "A" = .ok (some (1, 1), stA) := by
    simp +decide [get_coordinates, wAB, initSt, stA, cacheLookup, normalize, pyStrip, titleStep,
      parseField]
  have hB : get_coordinates wAB stA "B" = .ok (some (2, 2), stAB) := by
    simp +decide [get_coordinates, wAB, stA, stAB, cacheLookup, normalize, pyStrip, titleStep,
      parseField]
  exact claim_C3_amended gKm1247 wAB initSt "A" "B" (1, 1) (2, 2) stA stAB hA hB

/-- C4 (confirmed): a cached normalized name is answered from the cache with
only the hit counter moving (no miss, no request, no sleep, no cache change);
a cache miss sleeps exactly once on every exit path; and a second resolve of a
name that returned absent again returns absent with the miss counter
unchanged. -/
theorem claim_C4 (w : World) (s : St) (city : String) :
    (∀ e, cacheLookup s.cache (normalize city) = some e →
        get_coordinates w s city =
          .ok (entryCoord e, { s with cache_hits := s.cache_hits + 1 })) ∧
    (cacheLookup s.cache (normalize city) = none →
        (stOf (get_coordinates w s city)).sleeps = s.sleeps + 1) ∧
    (∀ s1, get_coordinates w s city = .ok (none, s1) →
        get_coordinates w s1 city =
          .ok (none, { s1 with cache_hits := s1.cache_hits + 1 })) := by
  refine ⟨fun e he => get_coordinates_hit w s city e he, ?_, ?_⟩
  · intro hm
    rcases get_coordinates_spec w s city with ⟨e, he, hg⟩ | ⟨_, ⟨o, hg⟩ | hg⟩
    · rw [hm] at he
      cases he
    · rw [hg]
      rfl
    · rw [hg]
      rfl
  · intro s1 h
    have hpost := get_coordinates_ok_post w s city none s1 h
    have hhit := get_coordinates_hit w s1 city CacheEntry.invalid hpost
    simpa [entryCoord] using hhit

/-- Witness for C4: negative-cache stability on a concrete unknown name. -/
theorem claim_C4_witness :
    get_coordinates wEmpty initSt "UnknownCity" = .ok (none, stU) ∧
    get_coordinates wEmpty stU "UnknownCity" =
      .ok (none, { stU with cache_hits := stU.cache_hits + 1 }) := by
  have h1 : get_coordinates wEmpty initSt "UnknownCity" = .ok (none, stU) := by
    simp +decide [get_coordinates, wEmpty, initSt, stU, cacheLookup, normalize, pyStrip, titleStep,
      parseField]
  exact ⟨h1, (claim_C4 wEmpty initSt "UnknownCity").2.2 stU h1⟩

/-- C5 (confirmed): building a matrix issues exactly as many geocode requests
as there are distinct normalized input names absent from the cache at the
start (`N - k` for `N` distinct names of which `k` are cached); the second
conjunct records that the uncached and cached distinct names partition the
distinct names (so the count is `N - k`). -/
theorem claim_C5 (g : Geodesic) (w : World) (s : St) (city_list : List String)
    (df : DistanceMatrix) (s' : St)
    (hid : ∀ city ∈ city_list, normalize (normalize city) = normalize city)
    (hrun : create_distance_matrix g w s city_list = .ok (df, s')) :
    s'.requests = s.requests +
      ((city_list.map normalize).toFinset.filter
        (fun c => cacheLookup s.cache c = none)).card ∧
    ((city_list.map normalize).toFinset.filter
        (fun c => cacheLookup s.cache c = none)).card +
      ((city_list.map normalize).toFinset.filter
        (fun c => ¬cacheLookup s.cache c = none)).card =
      (city_list.map normalize).toFinset.card := by
  have hn : ∀ c ∈ city_list.map normalize, normalize c = c := by
    intro c hc
    obtain ⟨x, hx, rfl⟩ := List.mem_map.1 hc
    exact hid x hx
  cases hb : buildCoords w (city_list.map normalize) [] s with
  | error s1 =>
      simp only [create_distance_matrix, hb] at hrun
      exact (Except.noConfusion hrun)
  | ok p =>
      obtain ⟨coords, s1⟩ := p
      simp only [create_distance_matrix, hb, Except.ok.injEq, Prod.mk.injEq] at hrun
      have hreq := buildCoords_requests w (city_list.map normalize) hn [] s coords s1 hb
      constructor
      · rw [← hrun.2]
        exact hreq
      · exact Finset.filter_card_add_filter_neg_card_eq_card _

/-- Witness for C5: three input names, two distinct, one of them already
cached: exactly one request is issued. -/
theorem claim_C5_witness :
    create_distance_matrix gKm1247 wAB stBinv ["A", "B", "A"] = .ok (dfABA, stABA) ∧
    stABA.requests = stBinv.requests +
      ((["A", "B", "A"].map normalize).toFinset.filter
        (fun c => cacheLookup stBinv.cache c = none)).card := by
  have hrun : create_distance_matrix gKm1247 wAB stBinv ["A", "B", "A"] = .ok (dfABA, stABA) := by
    simp +decide [create_distance_matrix, buildCoords, get_coordinates, matrixCell, pyDictInsert,
      pyDictLookup, wAB, stBinv, dfABA, stABA, cacheLookup, normalize, pyStrip, titleStep,
      parseField, gKm1247]
  exact ⟨hrun,
    (claim_C5 gKm1247 wAB stBinv ["A", "B", "A"] dfABA stABA (by decide) hrun).1⟩

/-- C6 (confirmed): across any single operation on a session, every existing
cache entry survives unchanged (a key is never rewritten to a different state
nor removed) and key uniqueness is preserved — except `clear_cache`, which
empties the cache and zeroes both counters. -/
theorem claim_C6 (g : Geodesic) (w : World) (s : St) (op : Op) :
    (op ≠ Op.clear → ∀ k e, cacheLookup s.cache k = some e →
        cacheLookup (runOp g w s op).cache k = some e) ∧
    (op ≠ Op.clear → (s.cache.map Prod.fst).Nodup →
        ((runOp g w s op).cache.map Prod.fst).Nodup) ∧
    runOp g w s Op.clear = { s with cache := [], cache_hits := 0, cache_misses := 0 } := by
  have hp : op ≠ Op.clear → CachePreserves s (runOp g w s op) := by
    intro hne
    cases op with
    | getCoords c => exact get_coordinates_preserves w s c
    | validate c => exact validate_city_preserves w s c
    | distKm a b => exact calculate_distance_km_preserves g w s a b
    | dist a b u => exact calculate_distance_preserves g w s a b u
    | matrix cs => exact create_distance_matrix_preserves g w s cs
    | batch cs => exact batch_preserves w cs [] s
    | exportM df fn fm => exact cachePreserves_of_eq rfl
    | stats => exact cachePreserves_of_eq rfl
    | clear => exact absurd rfl hne
  exact ⟨fun hne => (hp hne).1, fun hne => (hp hne).2, rfl⟩

/-- Witness for C6: resolving a fresh name preserves an existing Invalid
entry and key uniqueness; a clear resets cache and counters. -/
theorem claim_C6_witness :
    cacheLookup (runOp gKm1247 wEmpty stU (Op.getCoords "X")).cache "Unknowncity" =
      some CacheEntry.invalid ∧
    ((runOp gKm1247 wEmpty stU (Op.getCoords "X")).cache.map Prod.fst).Nodup ∧
    runOp gKm1247 wEmpty stU Op.clear =
      { stU with cache := [], cache_hits := 0, cache_misses := 0 } := by
  have hne : Op.getCoords "X" ≠ Op.clear := fun h => Op.noConfusion h
  exact ⟨(claim_C6 gKm1247 wEmpty stU (Op.getCoords "X")).1 hne "Unknowncity"
      CacheEntry.invalid (by rfl),
    (claim_C6 gKm1247 wEmpty stU (Op.getCoords "X")).2.1 hne (by decide),
    (claim_C6 gKm1247 wEmpty stU Op.clear).2.2⟩

/-- C7 (corrected) counterexample: the invalid-format `ValueError` is NOT the
only error kind the core lets escape: `get_coordinates` raises an uncaught
`KeyError` on a first result lacking the `lat` key (line 38). -/
theorem claim_C7_counterexample :
    get_coordinates wNoLat initSt "Kaunas" =
      .error { cache := [], cache_hits := 0, cache_misses := 1, requests := 1, sleeps := 1 } := by
  simp +decide [get_coordinates, wNoLat, initSt, cacheLookup, normalize, pyStrip, titleStep,
    parseField]

/-- C7 (corrected, amended): `export_matrix` with a format other than `"csv"`
or `"excel"` raises `ValueError` and writes no file; with `"csv"` or
`"excel"` it serializes without raising.  (The "only escaping error" part of
the claim is dropped: see the counterexample.) -/
theorem claim_C7_amended (df : DistanceMatrix) (filename : String) (format : String) :
    (format ≠ "csv" → format ≠ "excel" →
        export_matrix df filename format = .error "Unsupported format. Use csv or excel") ∧
    export_matrix df filename "csv" = .ok (.csv df filename) ∧
    export_matrix df filename "excel" = .ok (.excel df filename) := by
  refine ⟨?_, rfl, ?_⟩
  · intro h1 h2
    simp only [export_matrix]
    rw [if_neg h1, if_neg h2]
  · simp [export_matrix]

/-- Witness for C7 (amended) at format `"json"`. -/
theorem claim_C7_witness :
    export_matrix dfEmpty "out.csv" "json" = .error "Unsupported format. Use csv or excel" ∧
    export_matrix dfEmpty "out.csv" "csv" = .ok (.csv dfEmpty "out.csv") ∧
    export_matrix dfEmpty "out.csv" "excel" = .ok (.excel dfEmpty "out.csv") := by
  obtain ⟨h1, h2, h3⟩ := claim_C7_amended dfEmpty "out.csv" "json"
  exact ⟨h1 (by decide) (by decide), h2, h3⟩

/-- C8 (confirmed): for a name cached as the failure sentinel, the batch
result holds the raw sentinel (`"INVALID"`), while a name failing a fresh
lookup within the same batch is reported as `None`: two representations of
the same failed-lookup condition. -/
theorem claim_C8 (w : World) (s : St) (city : String) :
    (cacheLookup s.cache (normalize city) = some CacheEntry.invalid →
        get_coordinates_batch w [city] [] s =
          .ok ([(normalize city, PyVal.invalidStr)], { s with sleeps := s.sleeps + 1 })) ∧
    (∀ s1, cacheLookup s.cache (normalize city) = none →
        get_coordinates w s (normalize city) = .ok (none, s1) →
        get_coordinates_batch w [city] [] s =
          .ok ([(normalize city, PyVal.pyNone)], { s1 with sleeps := s1.sleeps + 1 })) := by
  constructor
  · intro hm
    simp only [get_coordinates_batch, hm, entryToPyVal, pyDictInsert]
  · intro s1 hm hg
    simp only [get_coordinates_batch, hm, hg, pyDictInsert]

/-- Witness for C8: cached sentinel vs fresh failure on the same name. -/
theorem claim_C8_witness :
    get_coordinates_batch wEmpty ["UnknownCity"] [] stU =
      .ok ([(normalize "UnknownCity", PyVal.invalidStr)], { stU with sleeps := stU.sleeps + 1 }) ∧
    get_coordinates_batch wEmpty ["UnknownCity"] [] initSt =
      .ok ([(normalize "UnknownCity", PyVal.pyNone)], { stU with sleeps := stU.sleeps + 1 }) := by
  have hfresh : get_coordinates wEmpty initSt (normalize "UnknownCity") = .ok (none, stU) := by
    simp +decide [get_coordinates, wEmpty, initSt, stU, cacheLookup, normalize, pyStrip, titleStep,
      parseField]
  exact ⟨(claim_C8 wEmpty stU "UnknownCity").1 (by decide),
    (claim_C8 wEmpty initSt "UnknownCity").2 stU (by decide) hfresh⟩

/-- C9 (confirmed): the batch loop sleeps once per name unconditionally: a
fully cached batch changes nothing but `sleeps`, which grows by the list
length; a fresh lookup incurs two delays; and every successful batch sleeps
at least once per name. -/
theorem claim_C9 (w : World) (s : St) (cities : List String) (city : String) :
    ((∀ c ∈ cities, (cacheLookup s.cache (normalize c)).isSome = true) →
        ∃ out, get_coordinates_batch w cities [] s =
          .ok (out, { s with sleeps := s.sleeps + cities.length })) ∧
    (normalize (normalize city) = normalize city →
     cacheLookup s.cache (normalize city) = none →
     ∀ o s1, get_coordinates w s (normalize city) = .ok (o, s1) →
        (stOf (get_coordinates_batch w [city] [] s)).sleeps = s.sleeps + 2) ∧
    (∀ out s', get_coordinates_batch w cities [] s = .ok (out, s') →
        s.sleeps + cities.length ≤ s'.sleeps) := by
  refine ⟨fun h => batch_all_cached w cities [] s h, ?_, fun out s' h => batch_sleeps_lower w cities [] s out s' h⟩
  intro hid hm o s1 hg
  have hs1 := get_coordinates_miss_ok w s (normalize city) o s1 (by rw [hid]; exact hm) hg
  simp only [get_coordinates_batch, hm, hg]
  rw [hs1]
  rfl

/-- Witness for C9: a fully cached single-name batch sleeps once; the same
name resolved fresh from an empty cache sleeps twice. -/
theorem claim_C9_witness :
    (stOf (get_coordinates_batch wEmpty ["UnknownCity"] [] stU)).sleeps = stU.sleeps + 1 ∧
    (stOf (get_coordinates_batch wEmpty ["UnknownCity"] [] initSt)).sleeps = initSt.sleeps + 2 := by
  constructor
  · obtain ⟨out, hout⟩ := (claim_C9 wEmpty stU ["UnknownCity"] "UnknownCity").1 (by decide)
    rw [hout]
    rfl
  · have hfresh : get_coordinates wEmpty initSt (normalize "UnknownCity") = .ok (none, stU) := by
      simp +decide [get_coordinates, wEmpty, initSt, stU, cacheLookup, normalize, pyStrip,
        titleStep, parseField]
    exact (claim_C9 wEmpty initSt ["UnknownCity"] "UnknownCity").2.1 (by decide) (by decide)
      none stU hfresh

/-- C10 (confirmed): with both coordinates resolved, `calculate_distance`
called with any unit value other than `"miles"` silently returns the
kilometre distance rounded to 2 decimals; no error is raised for an
unrecognized unit. -/
theorem claim_C10 (g : Geodesic) (w : World) (s : St) (city1 city2 unit : String)
    (c1 c2 : Coord) (s1 s2 : St)
    (hu : unit ≠ "miles")
    (h1 : get_coordinates w s city1 = .ok (some c1, s1))
    (h2 : get_coordinates w s1 city2 = .ok (some c2, s2)) :
    calculate_distance g w s city1 city2 unit = .ok (some (roundTo2 (g c1 c2)), s2) := by
  simp only [calculate_distance, h1, h2]
  rw [if_neg hu]

/-- Witness for C10 at unit `"metres"`. -/
theorem claim_C10_witness :
    ("metres" : String) ≠ "miles" ∧
    calculate_distance gKm1247 wAB initSt "A" "B" "metres" =
      .ok (some (roundTo2 (gKm1247 (1, 1) (2, 2))), stAB) := by
  have hA : get_coordinates wAB initSt "A" = .ok (some (1, 1), stA) := by
    simp +decide [get_coordinates, wAB, initSt, stA, cacheLookup, normalize, pyStrip, titleStep,
      parseField]
  have hB : get_coordinates wAB stA "B" = .ok (some (2, 2), stAB) := by
    simp +decide [get_coordinates, wAB, stA, stAB, cacheLookup, normalize, pyStrip, titleStep,
      parseField]
  exact ⟨by decide,
    claim_C10 gKm1247 wAB initSt "A" "B" "metres" (1, 1) (2, 2) stA stAB (by decide) hA hB⟩

end CityDistance
